import Mathlib

/-!
Shallow embedding of the tlshunter risk-classification engine
(`cmd/tlshunter/tlshunter.go` and `internal/manifest/manifest.go`).

The classifier `check` is a method of `Analysis` in Go; here it is a function of
the manifest, the optional network security config, the Android defaults, the
certificate-resolution environment (resource table, zip contents, X.509
parsing, all external collaborators), and the evaluation time in Unix seconds
(Go reads it through `time.Until`).  Go slices of non-nil pointers produced by
the XML decoder are modelled as plain lists; a Go `*T` attribute is `Option T`.
A run that dereferences a nil pointer (Go runtime panic) is modelled as
`Except.error ()`; a normal return of `risks` is `Except.ok risks`.
-/

/-! ### String helpers (Go `strings` package) -/

/-- Go `strings.TrimPrefix(s, "@")`: drop one leading `"@"` if present. -/
def trimAt (s : String) : String :=
  match s.toList with
  | '@' :: rest => String.mk rest
  | _ => s

/-- Go `strings.HasPrefix(s, pre)`, on the characters of the strings. -/
def goHasPrefixStr (s pre : String) : Bool :=
  pre.toList.isPrefixOf s.toList

/-- Go `strings.ToLower`, on the characters of the string (the sources only
inspect ASCII subjects). -/
def lowerString (s : String) : String :=
  String.mk (s.toList.map Char.toLower)

/-- Substring search on character lists; `listContainsSub hay needle` is Go
`strings.Contains(hay, needle)` restricted to the characters of the strings. -/
def listContainsSub : List Char → List Char → Bool
  | _, [] => true
  | [], _ :: _ => false
  | h :: t, n => if n.isPrefixOf (h :: t) then true else listContainsSub t n

/-- Go `strings.Contains`. -/
def stringContains (s sub : String) : Bool :=
  listContainsSub s.toList sub.toList

/-! ### Go `strconv.ParseInt(s, 16, 32)` -/

/-- Value of one hexadecimal digit character, `none` on a non-hex character. -/
def hexVal (c : Char) : Option Nat :=
  if '0' ≤ c ∧ c ≤ '9' then some (c.toNat - '0'.toNat)
  else if 'a' ≤ c ∧ c ≤ 'f' then some (c.toNat - 'a'.toNat + 10)
  else if 'A' ≤ c ∧ c ≤ 'F' then some (c.toNat - 'A'.toNat + 10)
  else none

/-- Accumulate the value of a hex digit string; `none` on any non-hex digit. -/
def hexDigitsVal : List Char → Nat → Option Nat
  | [], acc => some acc
  | c :: rest, acc =>
    match hexVal c with
    | none => none
    | some v => hexDigitsVal rest (acc * 16 + v)

/-- Go `strconv.ParseInt(s, 16, 32)`: optional sign, then one or more hex
digits, value within the signed 32-bit range; `none` exactly when Go returns a
non-nil error (syntax error or range error). -/
def parseHexInt32 (s : String) : Option Int :=
  let signAndDigits : Bool × List Char :=
    match s.toList with
    | '-' :: rest => (true, rest)
    | '+' :: rest => (false, rest)
    | cs => (false, cs)
  match signAndDigits with
  | (neg, ds) =>
    if ds.isEmpty then none
    else
      match hexDigitsVal ds 0 with
      | none => none
      | some mag =>
        let v : Int := if neg then -(mag : Int) else (mag : Int)
        if v < -(2 ^ 31) ∨ 2 ^ 31 - 1 < v then none else some v

/-- Go `uint32(x)` conversion of an in-range `int64`: two's-complement wrap. -/
def toUInt32Nat (v : Int) : Nat := (v % (2 ^ 32)).toNat

/-! ### Go `time.Parse("2006-01-02", s)` and the 10-day expiration window -/

/-- Gregorian leap-year rule (as in Go `time.isLeap`). -/
def isLeapYear (y : Nat) : Bool :=
  decide (y % 4 = 0 ∧ (y % 100 ≠ 0 ∨ y % 400 = 0))

/-- Length of month `m` of year `y` (as in Go `time.daysIn`). -/
def daysInMonth (y : Nat) (m : Nat) : Nat :=
  if m = 2 then (if isLeapYear y then 29 else 28)
  else if m = 4 ∨ m = 6 ∨ m = 9 ∨ m = 11 then 30
  else 31

/-- Numeric value of a decimal digit character. -/
def digitVal (c : Char) : Nat := c.toNat - '0'.toNat

/-- Days since 1970-01-01 of the civil date `y-m-d` (proleptic Gregorian,
years 0..9999).  Computed in `Nat` by shifting the era by 400 years
(146097 days) so no negative intermediate value appears. -/
def daysFromCivil (y m d : Nat) : Int :=
  let yShift : Nat := if m ≤ 2 then y + 399 else y + 400
  let era : Nat := yShift / 400
  let yoe : Nat := yShift - era * 400
  let mp : Nat := (m + 9) % 12
  let doy : Nat := (153 * mp + 2) / 5 + d - 1
  let doe : Nat := yoe * 365 + yoe / 4 - yoe / 100 + doy
  (era * 146097 + doe : Int) - 146097 - 719468

/-- Go `time.Parse("2006-01-02", s)`, reduced to its observable outcome:
`some d` with `d` the parsed date in days since the Unix epoch (midnight UTC)
when the string is exactly `YYYY-MM-DD` with a valid calendar month and day,
`none` when Go would return a parse error (wrong shape, extra text,
month or day out of range). -/
def parseDate (s : String) : Option Int :=
  match s.toList with
  | [y1, y2, y3, y4, c1, m1, m2, c2, d1, d2] =>
    if y1.isDigit ∧ y2.isDigit ∧ y3.isDigit ∧ y4.isDigit ∧ c1 = '-' ∧
       m1.isDigit ∧ m2.isDigit ∧ c2 = '-' ∧ d1.isDigit ∧ d2.isDigit then
      let y : Nat := digitVal y1 * 1000 + digitVal y2 * 100 + digitVal y3 * 10 + digitVal y4
      let mo : Nat := digitVal m1 * 10 + digitVal m2
      let da : Nat := digitVal d1 * 10 + digitVal d2
      if 1 ≤ mo ∧ mo ≤ 12 ∧ 1 ≤ da ∧ da ≤ daysInMonth y mo then
        some (daysFromCivil y mo da)
      else none
    else none
  | _ => none

/-- The pin-set expiration condition of `check`
(`err != nil || time.Until(expiration).Hours() <= 10*24`), with `now` the
evaluation time in Unix seconds: true when the expiration string does not
parse, or when the parsed date is at most 240 hours (= 864000 seconds)
in the future. -/
def pinSetExpirationHit (now : Int) (expiration : String) : Bool :=
  match parseDate expiration with
  | none => true
  | some days => decide (days * 86400 - now ≤ 864000)

/-! ### Data model (`internal/manifest/manifest.go`) -/

structure Domain where
  includeSubdomains : Bool
  data : String
deriving DecidableEq

structure Pin where
  digest : String
  data : String
deriving DecidableEq

structure PinSet where
  expiration : String
  pins : List Pin
deriving DecidableEq

structure Certificates where
  src : String
  overridePins : Option Bool
deriving DecidableEq

structure TrustAnchors where
  certificates : List Certificates
deriving DecidableEq

/- `DomainConfig` nests a list of child `DomainConfig`s; the nested list is
encoded as the mutually defined `DomainConfigForest` so that all recursion
over the tree is structural. -/
mutual
inductive DomainConfig : Type where
  | mk (cleartextTrafficPermitted : Option Bool) (domains : List Domain)
       (trustAnchors : Option TrustAnchors) (pinSet : Option PinSet)
       (children : DomainConfigForest) : DomainConfig
inductive DomainConfigForest : Type where
  | nil : DomainConfigForest
  | cons (head : DomainConfig) (tail : DomainConfigForest) : DomainConfigForest
end

def DomainConfig.cleartextTrafficPermitted : DomainConfig → Option Bool
  | .mk c _ _ _ _ => c

def DomainConfig.domains : DomainConfig → List Domain
  | .mk _ d _ _ _ => d

def DomainConfig.trustAnchors : DomainConfig → Option TrustAnchors
  | .mk _ _ t _ _ => t

def DomainConfig.pinSet : DomainConfig → Option PinSet
  | .mk _ _ _ p _ => p

def DomainConfig.children : DomainConfig → DomainConfigForest
  | .mk _ _ _ _ ch => ch

structure BaseConfig where
  cleartextTrafficPermitted : Option Bool
  trustAnchors : Option TrustAnchors

structure DebugOverrides where
  trustAnchors : Option TrustAnchors

structure NetworkSecurityConfig where
  baseConfig : Option BaseConfig
  domainConfig : DomainConfigForest
  debugOverrides : Option DebugOverrides

structure UsesSDK where
  minSDKVersion : Int
  targetSDKVersion : Int

structure Application where
  name : String
  label : String
  networkSecurityConfig : String
  usesCleartextTraffic : Option Bool
  debuggable : Option Bool

structure Manifest where
  usesSDK : UsesSDK
  application : Application

/-! ### Risk types (`tlshunter.go`) -/

inductive RiskType : Type where
  | RiskNSCMissing : RiskType
  | RiskCleartext : RiskType
  | RiskUserAnchors : RiskType
  | RiskAnchorsOverridePinning : RiskType
  | RiskUnpinned : RiskType
  | RiskPinningExpiration : RiskType
  | RiskProxyAnchors : RiskType
  | RiskMalformedNSC : RiskType
deriving DecidableEq

/-- `RiskType.Description`; the Go switch has no case for
`RiskPinningExpiration`, which therefore falls through to `"(unknown)"`. -/
def RiskType.description : RiskType → String
  | .RiskNSCMissing => "Android network security configuration is missing."
  | .RiskCleartext => "Allow cleartext traffic to be transferred."
  | .RiskUserAnchors => "Allow users to trust 3rd-party CAs."
  | .RiskAnchorsOverridePinning => "Trust anchors override pinned certificates."
  | .RiskUnpinned => "Does not pin any certificates."
  | .RiskProxyAnchors => "Trust anchors contain proxy tool CA."
  | .RiskMalformedNSC => "Domains in NSC contain invalid hostnames."
  | .RiskPinningExpiration => "(unknown)"

structure Risk where
  type : RiskType
  reason : String
deriving DecidableEq

structure AndroidDefaults where
  allowCleartext : Bool
  nscPresence : Bool

/-! ### SDK version mapper (`SDKVersionToAndroidMajor`) -/

/-- The Go switch of `SDKVersionToAndroidMajor`, written as the same
case lists; every value not listed (including values below 1) takes the
default branch and maps to 13. -/
def SDKVersionToAndroidMajor (sdkVersion : Int) : Int :=
  if sdkVersion = 1 ∨ sdkVersion = 2 ∨ sdkVersion = 3 ∨ sdkVersion = 4 then 1
  else if sdkVersion = 5 ∨ sdkVersion = 6 ∨ sdkVersion = 7 ∨ sdkVersion = 8 ∨
          sdkVersion = 9 ∨ sdkVersion = 10 then 2
  else if sdkVersion = 11 ∨ sdkVersion = 12 ∨ sdkVersion = 13 then 3
  else if sdkVersion = 14 ∨ sdkVersion = 15 ∨ sdkVersion = 16 ∨ sdkVersion = 17 ∨
          sdkVersion = 18 ∨ sdkVersion = 19 ∨ sdkVersion = 20 then 4
  else if sdkVersion = 21 ∨ sdkVersion = 22 then 5
  else if sdkVersion = 23 then 6
  else if sdkVersion = 24 ∨ sdkVersion = 25 then 7
  else if sdkVersion = 26 ∨ sdkVersion = 27 then 8
  else if sdkVersion = 28 then 9
  else if sdkVersion = 29 then 10
  else if sdkVersion = 30 then 11
  else if sdkVersion = 31 ∨ sdkVersion = 32 then 12
  else if sdkVersion = 33 then 13
  else 13

/-! ### Certificate resource resolution (the shared block at
`tlshunter.go` lines 211-231 and 286-306) -/

/-- One entry of the zip map `a.zip.File`: whether `Open` fails, whether
`io.ReadAll` fails, and the bytes read on success. -/
structure ZipEntry where
  openError : Bool
  readError : Bool
  content : List Nat

/-- The external collaborators used by the resolution block:
`a.resources.GetResourceEntry` composed with `entry.GetValue().String()`
(whose error the Go code ignores, so only the string survives), the zip
file map, and `x509.ParseCertificate` composed with `cert.Subject.String()`. -/
structure ResolveEnv where
  getResourceEntry : Nat → Option String
  zipFile : String → Option ZipEntry
  parseCertificateSubject : List Nat → Option String

/-- Outcome of the resolution block for one `Certificates` entry:
`panicked` when `a.zip.File[filename]` is absent (the map yields a nil
pointer and the `Open` method call dereferences it), `skipped` for every
`continue` branch, `resolvedSubject` when an X.509 certificate is parsed. -/
inductive ResolveOutcome : Type where
  | panicked : ResolveOutcome
  | skipped : ResolveOutcome
  | resolvedSubject (subject : String) : ResolveOutcome

/-- The resolution block: trim `"@"`, `ParseInt(res, 16, 32)`,
`GetResourceEntry(uint32(resId))`, zip-map lookup, `Open`, `ReadAll`,
`ParseCertificate`. -/
def resolveAnchorCert (env : ResolveEnv) (src : String) : ResolveOutcome :=
  match parseHexInt32 (trimAt src) with
  | none => .skipped
  | some resId =>
    match env.getResourceEntry (toUInt32Nat resId) with
    | none => .skipped
    | some filename =>
      match env.zipFile filename with
      | none => .panicked
      | some entry =>
        if entry.openError then .skipped
        else if entry.readError then .skipped
        else
          match env.parseCertificateSubject entry.content with
          | none => .skipped
          | some subject => .resolvedSubject subject

/-! ### The classifier `check`, decomposed by the source's sections -/

/-- The `certs.Src == "user"` emission of the base-config anchors loop
(`tlshunter.go` lines 195-200). -/
def userSrcRisks (sec : String) (certs : Certificates) : List Risk :=
  if certs.src = "user" then
    [⟨.RiskUserAnchors, sec ++ " allow user CAs."⟩]
  else []

/-- The explicit-`overridePins` emission of the base-config anchors loop
(`tlshunter.go` lines 202-208). -/
def overridePinsRisks (sec : String) (certs : Certificates) : List Risk :=
  if certs.overridePins = some true then
    [⟨.RiskAnchorsOverridePinning, sec ++ " override certificate pinning."⟩]
  else []

/-- The proxy-heuristic emission after a successful resolution, with the
base-config reason wording (`tlshunter.go` lines 232-237). -/
def baseProxyRisks (sec : String) (subject : String) : List Risk :=
  if stringContains (lowerString subject) "proxy" then
    [⟨.RiskUserAnchors,
      sec ++ " contain proxy tool CA with subject \"" ++ subject ++ "\"."⟩]
  else []

/-- Body of one iteration of the base-config trust-anchors loop
(`tlshunter.go` lines 193-238), for the already-indexed section string. -/
def baseAnchorCertRisks (env : ResolveEnv) (sec : String) (certs : Certificates) :
    Except Unit (List Risk) :=
  if certs.src ≠ "system" ∧ certs.src ≠ "user" then
    match resolveAnchorCert env certs.src with
    | .panicked => .error ()
    | .skipped => .ok (userSrcRisks sec certs ++ overridePinsRisks sec certs)
    | .resolvedSubject subject =>
      .ok (userSrcRisks sec certs ++ overridePinsRisks sec certs ++
        baseProxyRisks sec subject)
  else .ok (userSrcRisks sec certs ++ overridePinsRisks sec certs)

/-- The base-config trust-anchors loop, threading the Go range index into
the per-entry section string; a panic in one entry aborts the run. -/
def baseAnchorsRisks (env : ResolveEnv) (sec : String) :
    Nat → List Certificates → Except Unit (List Risk)
  | _, [] => .ok []
  | i, c :: rest =>
    match baseAnchorCertRisks env
        (sec ++ " trust anchors (index: " ++ toString i ++ ")") c with
    | .error e => .error e
    | .ok r1 =>
      match baseAnchorsRisks env sec (i + 1) rest with
      | .error e => .error e
      | .ok r2 => .ok (r1 ++ r2)

/-- The tri-state cleartext rule of a present base config
(`tlshunter.go` lines 177-189): unset falls back to the platform default,
explicit `true` emits the distinct "permits" wording, explicit `false`
emits nothing. -/
def baseCleartextRisks (defaults : AndroidDefaults) (sec : String)
    (ctp : Option Bool) : List Risk :=
  match ctp with
  | none =>
    if defaults.allowCleartext then
      [⟨.RiskCleartext, sec ++ " defaults permit cleartext traffic."⟩]
    else []
  | some true => [⟨.RiskCleartext, sec ++ " permits cleartext traffic."⟩]
  | some false => []

/-- The base-config section of `check` (`tlshunter.go` lines 166-242). -/
def baseConfigRisks (env : ResolveEnv) (defaults : AndroidDefaults) (sec : String)
    (baseConfig : Option BaseConfig) : Except Unit (List Risk) :=
  match baseConfig with
  | none =>
    .ok (if defaults.allowCleartext then
      [⟨.RiskCleartext, sec ++ " defaults permit cleartext traffic."⟩]
    else [])
  | some bc =>
    match bc.trustAnchors with
    | none => .ok (baseCleartextRisks defaults sec bc.cleartextTrafficPermitted)
    | some anchors =>
      match baseAnchorsRisks env sec 0 anchors.certificates with
      | .error e => .error e
      | .ok ar => .ok (baseCleartextRisks defaults sec bc.cleartextTrafficPermitted ++ ar)

/-- The pre-order flattening of the domain-config forest
(`flattenDomainConfig`, `tlshunter.go` lines 246-255): each node, then its
flattened children, then the flattened remaining siblings.  The slice
elements produced by the XML decoder are non-nil, so the Go `!= nil`
guard on the head is vacuous here. -/
def flattenDomainConfig : DomainConfigForest → List DomainConfig
  | .nil => []
  | .cons (.mk c d t p children) rest =>
    DomainConfig.mk c d t p children ::
      (flattenDomainConfig children ++ flattenDomainConfig rest)

/-- Total number of nodes of a domain-config forest. -/
def forestSize : DomainConfigForest → Nat
  | .nil => 0
  | .cons (.mk _ _ _ _ children) rest => 1 + forestSize children + forestSize rest

/-- The proxy-heuristic emission after a successful resolution, with the
domain-config reason wording (`tlshunter.go` lines 307-312). -/
def nodeProxyRisks (sec : String) (subject : String) : List Risk :=
  if stringContains (lowerString subject) "proxy" then
    [⟨.RiskUserAnchors,
      sec ++ " trust anchors contain proxy tool CA with subject \"" ++
        subject ++ "\"."⟩]
  else []

/-- Body of one iteration of the domain-config trust-anchors loop
(`tlshunter.go` lines 284-314): only sources other than `"system"` and
`"user"` are examined, via the resolution block and the proxy heuristic. -/
def nodeAnchorCertRisks (env : ResolveEnv) (sec : String) (certs : Certificates) :
    Except Unit (List Risk) :=
  if certs.src ≠ "system" ∧ certs.src ≠ "user" then
    match resolveAnchorCert env certs.src with
    | .panicked => .error ()
    | .skipped => .ok []
    | .resolvedSubject subject => .ok (nodeProxyRisks sec subject)
  else .ok []

/-- The domain-config trust-anchors loop (no per-entry index in the Go
section string). -/
def nodeAnchorsRisks (env : ResolveEnv) (sec : String) :
    List Certificates → Except Unit (List Risk)
  | [] => .ok []
  | c :: rest =>
    match nodeAnchorCertRisks env sec c with
    | .error e => .error e
    | .ok r1 =>
      match nodeAnchorsRisks env sec rest with
      | .error e => .error e
      | .ok r2 => .ok (r1 ++ r2)

/-- Whether one flattened node sets the global `pinned` flag
(`len(domainConfig.PinSet.Pins) > 0` under `PinSet != nil`). -/
def nodePinned (dc : DomainConfig) : Bool :=
  match dc.pinSet with
  | none => false
  | some ps => decide (0 < ps.pins.length)

/-- The pin-set expiration emission of one node (`tlshunter.go` lines
261-269). -/
def pinSetRisks (now : Int) (sec : String) (pinSet : Option PinSet) : List Risk :=
  match pinSet with
  | none => []
  | some ps =>
    if pinSetExpirationHit now ps.expiration then
      [⟨.RiskPinningExpiration, sec ++ " pin set (will) hit its expiration."⟩]
    else []

/-- The malformed-hostname emissions of one node (`tlshunter.go` lines
275-282): one risk per domain pattern beginning with `"http"`. -/
def malformedDomainRisks (sec : String) (domains : List Domain) : List Risk :=
  (domains.filter (fun d => goHasPrefixStr d.data "http")).map (fun d =>
    ⟨.RiskMalformedNSC,
      sec ++ " domains contain malformed hostname \"" ++ d.data ++ "\"."⟩)

/-- Risks of one flattened domain-config node (`tlshunter.go` lines
260-316), for the already-indexed section string: pin-set expiration,
malformed `"http"`-prefixed domains, then trust anchors. -/
def domainNodeRisks (env : ResolveEnv) (now : Int) (sec : String) (dc : DomainConfig) :
    Except Unit (List Risk) :=
  match dc.trustAnchors with
  | none => .ok (pinSetRisks now sec dc.pinSet ++ malformedDomainRisks sec dc.domains)
  | some ta =>
    match nodeAnchorsRisks env sec ta.certificates with
    | .error e => .error e
    | .ok ar =>
      .ok (pinSetRisks now sec dc.pinSet ++ malformedDomainRisks sec dc.domains ++ ar)

/-- The loop over the flattened nodes, threading the Go range index into
the per-node section string. -/
def domainNodesRisks (env : ResolveEnv) (now : Int) (sec : String) :
    Nat → List DomainConfig → Except Unit (List Risk)
  | _, [] => .ok []
  | i, dc :: rest =>
    match domainNodeRisks env now
        (sec ++ " sub config (index: " ++ toString i ++ ")") dc with
    | .error e => .error e
    | .ok r1 =>
      match domainNodesRisks env now sec (i + 1) rest with
      | .error e => .error e
      | .ok r2 => .ok (r1 ++ r2)

/-- The domain-config section of `check` (`tlshunter.go` lines 243-324):
flatten, evaluate every node, then the section-level unpinned risk when no
node set the `pinned` flag. -/
def domainSectionRisks (env : ResolveEnv) (now : Int) (sec : String)
    (forest : DomainConfigForest) : Except Unit (List Risk) :=
  let flat := flattenDomainConfig forest
  match domainNodesRisks env now sec 0 flat with
  | .error e => .error e
  | .ok nodeRisks =>
    .ok (nodeRisks ++
      (if flat.any nodePinned then []
       else [⟨.RiskUnpinned, sec ++ " does not contain pinned certificates."⟩]))

/-- The classifier `check` (`tlshunter.go` lines 157-350).  Section strings
are the results of the source's `fmt.Sprintf` chains from `"NSC"` and
`"Manifest"`. -/
def check (env : ResolveEnv) (now : Int) (m : Manifest)
    (nsc : Option NetworkSecurityConfig) (defaults : AndroidDefaults) :
    Except Unit (List Risk) :=
  match nsc with
  | some cfg =>
    match baseConfigRisks env defaults "NSC base config" cfg.baseConfig with
    | .error e => .error e
    | .ok br =>
      match domainSectionRisks env now "NSC domain config" cfg.domainConfig with
      | .error e => .error e
      | .ok dr => .ok (br ++ dr)
  | none =>
    let nscRisks : List Risk :=
      if defaults.nscPresence then
        [⟨.RiskNSCMissing,
          "Manifest does not specify NSC where target Android version supports it."⟩]
      else []
    let cleartextRisks : List Risk :=
      match m.application.usesCleartextTraffic with
      | none =>
        if defaults.allowCleartext then
          [⟨.RiskCleartext, "Manifest defaults permit cleartext traffic."⟩]
        else []
      | some true => [⟨.RiskCleartext, "Manifest permits cleartext traffic."⟩]
      | some false => []
    .ok (nscRisks ++ cleartextRisks)

structure Analysis where
  file : String
  name : String
  targetVersion : Int
  risks : List Risk

/-- `Analyze` (`tlshunter.go` lines 365-387): compute the target major
version, derive the Android defaults (`AllowCleartext` for majors below 9,
`NSCPresence` from major 7 on), then run `check`. -/
def Analyze (env : ResolveEnv) (now : Int) (file : String) (m : Manifest)
    (nsc : Option NetworkSecurityConfig) : Except Unit Analysis :=
  let tv := SDKVersionToAndroidMajor m.usesSDK.targetSDKVersion
  let defaults : AndroidDefaults := ⟨decide (tv < 9), decide (7 ≤ tv)⟩
  match check env now m nsc defaults with
  | .error e => .error e
  | .ok risks => .ok ⟨file, m.application.name, tv, risks⟩

/-! ### Concrete inputs used by the claim theorems -/

/-- Environment with an empty resource table and an empty zip. -/
def envEmpty : ResolveEnv := ⟨fun _ => none, fun _ => none, fun _ => none⟩

/-- Defaults of an Android-9+ target: no cleartext by default; paired here
with `nscPresence := false` to keep the section under test isolated. -/
def d0 : AndroidDefaults := ⟨false, false⟩

/-- A plain manifest with every tri-state attribute unset. -/
def m0 : Manifest := ⟨⟨1, 21⟩, ⟨"app", "", "", none, none⟩⟩

/-- Environment whose resource table maps id 1 to a file name that is
absent from the zip map. -/
def envC2 : ResolveEnv :=
  ⟨fun i => if i = 1 then some "missing.pem" else none, fun _ => none, fun _ => none⟩

/-- NSC whose base config holds a single trust anchor with the invalid-hex
source `"@zz"`. -/
def nscZZ : NetworkSecurityConfig :=
  ⟨some ⟨some false, some ⟨[⟨"@zz", none⟩]⟩⟩, .nil, none⟩

/-- NSC whose base config holds a single trust anchor with source `"@1"`,
resolvable in the resource table but missing from the zip. -/
def nscMissingEntry : NetworkSecurityConfig :=
  ⟨some ⟨some false, some ⟨[⟨"@1", none⟩]⟩⟩, .nil, none⟩

/-- Environment resolving id 1 to a readable zip entry whose bytes parse as
a certificate with subject `"CN=Proxy Root CA"`. -/
def envC4 : ResolveEnv :=
  ⟨fun i => if i = 1 then some "proxy.der" else none,
   fun f => if f = "proxy.der" then some ⟨false, false, [1]⟩ else none,
   fun b => if b = [1] then some "CN=Proxy Root CA" else none⟩

/-- NSC whose base config holds a single resolvable trust anchor. -/
def nscC4 : NetworkSecurityConfig :=
  ⟨some ⟨some false, some ⟨[⟨"@1", none⟩]⟩⟩, .nil, none⟩

/-- NSC with one domain-config node whose trust anchors hold `src == "user"`. -/
def nscC3 : NetworkSecurityConfig :=
  ⟨none, .cons (.mk none [] (some ⟨[⟨"user", none⟩]⟩) none .nil) .nil, none⟩

/-- NSC with one domain-config node carrying a pin set that expires
2030-01-01 and declares no pins. -/
def nscC9 : NetworkSecurityConfig :=
  ⟨none, .cons (.mk none [] none (some ⟨"2030-01-01", []⟩) .nil) .nil, none⟩

/-- A childless domain-config node with every attribute empty. -/
def leafDC : DomainConfig := .mk none [] none none .nil

/-- A forest of `n` childless sibling nodes. -/
def wideForest : Nat → DomainConfigForest
  | 0 => .nil
  | n + 1 => .cons leafDC (wideForest n)

/-! ### Helper lemmas -/

/-- The flattening of `n` childless siblings is those `n` nodes. -/
theorem flatten_wideForest (n : Nat) :
    flattenDomainConfig (wideForest n) = List.replicate n leafDC := by
  induction n with
  | zero => rfl
  | succ n ih => simp [wideForest, leafDC, flattenDomainConfig, ih, List.replicate]

/-! ### C1 — flattening bounds -/

/-- C1 counterexample: no total node-count bound exists for
`flattenDomainConfig` — for every candidate bound there is a forest whose
flattening is longer, so the claimed maximum node count (and with it the
claimed bound pair) is refuted. -/
theorem c1_claim_counterexample :
    ¬ ∃ N : Nat, ∀ f : DomainConfigForest, (flattenDomainConfig f).length ≤ N := by
  rintro ⟨N, hN⟩
  have h := hN (wideForest (N + 1))
  rw [flatten_wideForest] at h
  simp at h

/-- C1 (amended): `flattenDomainConfig` enforces no depth or node-count
bound; it is the complete pre-order flattening, whose length is exactly the
total number of nodes of the forest, however deep or wide. -/
theorem c1_flatten_complete (f : DomainConfigForest) :
    (flattenDomainConfig f).length = forestSize f := by
  induction f using forestSize.induct with
  | case1 => rfl
  | case2 c d t p children rest ih1 ih2 =>
    simp [flattenDomainConfig, forestSize, ih1, ih2]
    omega

/-! ### C2 — scoping of resolution failures -/

/-- C2: the invalid-hex source `"@zz"` is skipped without any anchor risk
(first conjunct), but a source whose resource id resolves to a file name
absent from the zip map makes the whole run panic (nil-map method call),
modelled as `.error ()` (second conjunct). -/
theorem c2_missing_zip_entry_panics :
    check envC2 0 m0 (some nscZZ) d0 =
      .ok [⟨.RiskUnpinned, "NSC domain config does not contain pinned certificates."⟩] ∧
    check envC2 0 m0 (some nscMissingEntry) d0 = .error () :=
  ⟨rfl, rfl⟩

/-! ### C3 — user anchors inside domain-config nodes -/

/-- C3 counterexample: a flattened domain-config node whose trust anchors
hold `src == "user"` produces no `RiskUserAnchors`; the whole output is the
section-level unpinned risk only. -/
theorem c3_claim_counterexample :
    check envEmpty 0 m0 (some nscC3) d0 =
      .ok [⟨.RiskUnpinned, "NSC domain config does not contain pinned certificates."⟩] ∧
    ¬ ∃ r ∈ [(⟨.RiskUnpinned,
        "NSC domain config does not contain pinned certificates."⟩ : Risk)],
        r.type = RiskType.RiskUserAnchors :=
  ⟨rfl, by decide⟩

/-- C3 (amended): in the domain-config trust-anchors loop a
`src == "user"` entry is not examined at all and contributes no risk,
unlike the base-config loop where it emits `RiskUserAnchors`. -/
theorem c3_user_src_ignored (env : ResolveEnv) (sec : String) (op : Option Bool)
    (rest : List Certificates) :
    nodeAnchorsRisks env sec (⟨"user", op⟩ :: rest) = nodeAnchorsRisks env sec rest := by
  have h : nodeAnchorCertRisks env sec ⟨"user", op⟩ = .ok [] := rfl
  cases hr : nodeAnchorsRisks env sec rest <;> simp [nodeAnchorsRisks, h, hr]

/-! ### C4 — risk type of the proxy heuristic -/

/-- C4: a successfully resolved anchor certificate whose lowercased subject
contains "proxy" is emitted with type `RiskUserAnchors`, not with the
distinct `RiskProxyAnchors` type the enumeration defines for it; the reason
does reference the literal subject string. -/
theorem c4_proxy_emits_user_anchors :
    check envC4 0 m0 (some nscC4) d0 =
      .ok [⟨.RiskUserAnchors,
        "NSC base config trust anchors (index: 0) contain proxy tool CA with subject \"CN=Proxy Root CA\"."⟩,
        ⟨.RiskUnpinned, "NSC domain config does not contain pinned certificates."⟩] ∧
    RiskType.RiskUserAnchors ≠ RiskType.RiskProxyAnchors :=
  ⟨rfl, by decide⟩

/-! ### C7 — defaults with the NSC absent -/

/-- C7: with the NSC absent and `usesCleartextTraffic` unset, target SDK 30
(Android major 11) yields exactly the NSC-missing risk, and target SDK 21
(major 5) yields exactly the defaults-based cleartext risk. -/
theorem c7_nsc_absent_defaults (env : ResolveEnv) (now : Int) (file nm lb pth : String)
    (dbg : Option Bool) (minSdk : Int) :
    Analyze env now file ⟨⟨minSdk, 30⟩, ⟨nm, lb, pth, none, dbg⟩⟩ none =
      .ok ⟨file, nm, 11,
        [⟨.RiskNSCMissing,
          "Manifest does not specify NSC where target Android version supports it."⟩]⟩ ∧
    Analyze env now file ⟨⟨minSdk, 21⟩, ⟨nm, lb, pth, none, dbg⟩⟩ none =
      .ok ⟨file, nm, 5,
        [⟨.RiskCleartext, "Manifest defaults permit cleartext traffic."⟩]⟩ :=
  ⟨rfl, rfl⟩

/-! ### C8 — SDK integers below 1 -/

/-- C8 counterexample: at the malformed target SDK 0 the mapper returns 13
(the default branch), not the claimed clamp to major version 1, and its
total return type leaves no error to signal. -/
theorem c8_claim_counterexample :
    SDKVersionToAndroidMajor 0 = 13 ∧ SDKVersionToAndroidMajor 0 ≠ 1 := by
  decide

/-- C8 (amended): for every SDK integer below 1 the mapper does not panic
and deterministically returns 13, the same latest-known major version the
default branch gives unknown high values — neither a clamp to 1 nor a
validation error. -/
theorem c8_below_one (v : Int) (h : v < 1) : SDKVersionToAndroidMajor v = 13 := by
  unfold SDKVersionToAndroidMajor
  repeat rw [if_neg (by omega)]

/-- C8 witness: the amended theorem applied at 0. -/
theorem c8_witness : (0 : Int) < 1 ∧ SDKVersionToAndroidMajor 0 = 13 :=
  ⟨by decide, c8_below_one 0 (by decide)⟩

/-! ### C9 — determinism -/

/-- C9 counterexample: identical manifest, NSC, defaults and resolution
environment, evaluated at two different times, give different risk
sequences — the pin-set expiration rule reads the clock, which the claim's
input list omits. -/
theorem c9_claim_counterexample :
    check envEmpty 0 m0 (some nscC9) d0 ≠
      check envEmpty 1893456000 m0 (some nscC9) d0 := by
  intro h
  have h1 : check envEmpty 0 m0 (some nscC9) d0 =
      .ok [⟨.RiskUnpinned, "NSC domain config does not contain pinned certificates."⟩] := rfl
  have h2 : check envEmpty 1893456000 m0 (some nscC9) d0 =
      .ok [⟨.RiskPinningExpiration,
            "NSC domain config sub config (index: 0) pin set (will) hit its expiration."⟩,
           ⟨.RiskUnpinned, "NSC domain config does not contain pinned certificates."⟩] := rfl
  rw [h1, h2] at h
  exact absurd (Except.ok.inj h) (by decide)

/-- C9 (amended): the classifier is a pure function of its explicit inputs
once the evaluation time is counted among them — equal manifest, NSC,
defaults, resolution environment AND evaluation time give equal risk
sequences. -/
theorem c9_deterministic (env env2 : ResolveEnv) (now now2 : Int) (m m2 : Manifest)
    (nsc nsc2 : Option NetworkSecurityConfig) (d d2 : AndroidDefaults)
    (he : env = env2) (hn : now = now2) (hm : m = m2) (hc : nsc = nsc2)
    (hd : d = d2) :
    check env now m nsc d = check env2 now2 m2 nsc2 d2 := by
  subst he hn hm hc hd
  rfl

/-- C9 witness: the amended theorem applied at concrete equal inputs. -/
theorem c9_witness :
    envEmpty = envEmpty ∧ (0 : Int) = 0 ∧ m0 = m0 ∧
      (some nscC9 : Option NetworkSecurityConfig) = some nscC9 ∧ d0 = d0 ∧
      check envEmpty 0 m0 (some nscC9) d0 = check envEmpty 0 m0 (some nscC9) d0 :=
  ⟨rfl, rfl, rfl, rfl, rfl,
    c9_deterministic envEmpty envEmpty 0 0 m0 m0 (some nscC9) (some nscC9) d0 d0
      rfl rfl rfl rfl rfl⟩

/-! ### C10 — debuggable is never read -/

/-- C10: two manifests that differ only in the application's `debuggable`
tri-state produce identical risk sequences, for every NSC, defaults,
environment and evaluation time. -/
theorem c10_debuggable_irrelevant (env : ResolveEnv) (now : Int) (m : Manifest)
    (nsc : Option NetworkSecurityConfig) (d : AndroidDefaults) (b1 b2 : Option Bool) :
    check env now ⟨m.usesSDK, ⟨m.application.name, m.application.label,
        m.application.networkSecurityConfig, m.application.usesCleartextTraffic, b1⟩⟩
      nsc d =
    check env now ⟨m.usesSDK, ⟨m.application.name, m.application.label,
        m.application.networkSecurityConfig, m.application.usesCleartextTraffic, b2⟩⟩
      nsc d := by
  cases nsc <;> rfl

/-! ### Types of emitted risks, per component -/

/-- The source expiration condition restated as the spec condition:
parse failure, or parsed date at most 10 days (864000 s) ahead of `now`. -/
theorem pinSetExpirationHit_iff (now : Int) (e : String) :
    pinSetExpirationHit now e = true ↔
      (parseDate e = none ∨ ∃ d, parseDate e = some d ∧ d * 86400 - now ≤ 864000) := by
  cases h : parseDate e <;> simp [pinSetExpirationHit, h]

/-- A node sets the `pinned` flag exactly when it declares a pin set with a
non-empty pin list. -/
theorem nodePinned_iff (dc : DomainConfig) :
    nodePinned dc = true ↔ ∃ ps, dc.pinSet = some ps ∧ ps.pins ≠ [] := by
  cases hps : dc.pinSet <;> simp [nodePinned, hps, List.length_pos]

theorem pinSetRisks_types (now : Int) (sec : String) (p : Option PinSet) :
    ∀ r ∈ pinSetRisks now sec p, r.type = RiskType.RiskPinningExpiration := by
  intro r hr
  cases p with
  | none => simp only [pinSetRisks] at hr; cases hr
  | some ps =>
    simp only [pinSetRisks] at hr
    split at hr
    · simp at hr; subst hr; rfl
    · cases hr

theorem malformedDomainRisks_types (sec : String) (ds : List Domain) :
    ∀ r ∈ malformedDomainRisks sec ds, r.type = RiskType.RiskMalformedNSC := by
  intro r hr
  unfold malformedDomainRisks at hr
  rcases List.mem_map.mp hr with ⟨d, _, rfl⟩
  rfl

theorem nodeProxyRisks_types (sec subject : String) :
    ∀ r ∈ nodeProxyRisks sec subject, r.type = RiskType.RiskUserAnchors := by
  intro r hr
  unfold nodeProxyRisks at hr
  split at hr
  · simp at hr; subst hr; rfl
  · cases hr

theorem userSrcRisks_types (sec : String) (c : Certificates) :
    ∀ r ∈ userSrcRisks sec c, r.type = RiskType.RiskUserAnchors := by
  intro r hr
  unfold userSrcRisks at hr
  split at hr
  · simp at hr; subst hr; rfl
  · cases hr

theorem overridePinsRisks_types (sec : String) (c : Certificates) :
    ∀ r ∈ overridePinsRisks sec c, r.type = RiskType.RiskAnchorsOverridePinning := by
  intro r hr
  unfold overridePinsRisks at hr
  split at hr
  · simp at hr; subst hr; rfl
  · cases hr

theorem baseProxyRisks_types (sec subject : String) :
    ∀ r ∈ baseProxyRisks sec subject, r.type = RiskType.RiskUserAnchors := by
  intro r hr
  unfold baseProxyRisks at hr
  split at hr
  · simp at hr; subst hr; rfl
  · cases hr

theorem nodeAnchorCertRisks_types (env : ResolveEnv) (sec : String) (c : Certificates)
    (rs : List Risk) (h : nodeAnchorCertRisks env sec c = .ok rs) :
    ∀ r ∈ rs, r.type = RiskType.RiskUserAnchors := by
  intro r hr
  unfold nodeAnchorCertRisks at h
  split at h
  · cases hres : resolveAnchorCert env c.src <;> rw [hres] at h
    · simp at h
    · obtain rfl := Except.ok.inj h; cases hr
    · obtain rfl := Except.ok.inj h
      exact nodeProxyRisks_types _ _ r hr
  · obtain rfl := Except.ok.inj h; cases hr

theorem nodeAnchorsRisks_types (env : ResolveEnv) (sec : String) :
    ∀ (l : List Certificates) (rs : List Risk),
      nodeAnchorsRisks env sec l = .ok rs →
      ∀ r ∈ rs, r.type = RiskType.RiskUserAnchors := by
  intro l
  induction l with
  | nil =>
    intro rs h r hr
    obtain rfl := Except.ok.inj h
    cases hr
  | cons c rest ih =>
    intro rs h r hr
    simp only [nodeAnchorsRisks] at h
    cases hc : nodeAnchorCertRisks env sec c <;> rw [hc] at h
    · simp at h
    · cases hrest : nodeAnchorsRisks env sec rest <;> rw [hrest] at h
      · simp at h
      · obtain rfl := Except.ok.inj h
        rcases List.mem_append.mp hr with h1 | h2
        · exact nodeAnchorCertRisks_types env sec c _ hc r h1
        · exact ih _ hrest r h2

theorem domainNodeRisks_types (env : ResolveEnv) (now : Int) (sec : String)
    (dc : DomainConfig) (rs : List Risk) (h : domainNodeRisks env now sec dc = .ok rs) :
    ∀ r ∈ rs, r.type = RiskType.RiskPinningExpiration ∨
      r.type = RiskType.RiskMalformedNSC ∨ r.type = RiskType.RiskUserAnchors := by
  intro r hr
  unfold domainNodeRisks at h
  split at h
  · obtain rfl := Except.ok.inj h
    rcases List.mem_append.mp hr with h1 | h2
    · exact .inl (pinSetRisks_types now sec _ r h1)
    · exact .inr (.inl (malformedDomainRisks_types sec _ r h2))
  · split at h
    · simp at h
    · obtain rfl := Except.ok.inj h
      rcases List.mem_append.mp hr with h12 | h3
      · rcases List.mem_append.mp h12 with h1 | h2
        · exact .inl (pinSetRisks_types now sec _ r h1)
        · exact .inr (.inl (malformedDomainRisks_types sec _ r h2))
      · exact .inr (.inr (nodeAnchorsRisks_types env sec _ _ (by assumption) r h3))

theorem domainNodesRisks_types (env : ResolveEnv) (now : Int) (sec : String) :
    ∀ (i : Nat) (l : List DomainConfig) (rs : List Risk),
      domainNodesRisks env now sec i l = .ok rs →
      ∀ r ∈ rs, r.type = RiskType.RiskPinningExpiration ∨
        r.type = RiskType.RiskMalformedNSC ∨ r.type = RiskType.RiskUserAnchors := by
  intro i l
  induction l generalizing i with
  | nil =>
    intro rs h r hr
    obtain rfl := Except.ok.inj h
    cases hr
  | cons dc rest ih =>
    intro rs h r hr
    simp only [domainNodesRisks] at h
    cases hn : domainNodeRisks env now
        (sec ++ " sub config (index: " ++ toString i ++ ")") dc <;> rw [hn] at h
    · simp at h
    · cases hrest : domainNodesRisks env now sec (i + 1) rest <;> rw [hrest] at h
      · simp at h
      · obtain rfl := Except.ok.inj h
        rcases List.mem_append.mp hr with h1 | h2
        · exact domainNodeRisks_types env now _ dc _ hn r h1
        · exact ih (i + 1) _ hrest r h2

theorem baseAnchorCertRisks_types (env : ResolveEnv) (sec : String) (c : Certificates)
    (rs : List Risk) (h : baseAnchorCertRisks env sec c = .ok rs) :
    ∀ r ∈ rs, r.type = RiskType.RiskUserAnchors ∨
      r.type = RiskType.RiskAnchorsOverridePinning := by
  intro r hr
  unfold baseAnchorCertRisks at h
  split at h
  · cases hres : resolveAnchorCert env c.src <;> rw [hres] at h
    · simp at h
    · obtain rfl := Except.ok.inj h
      rcases List.mem_append.mp hr with h1 | h2
      · exact .inl (userSrcRisks_types sec c r h1)
      · exact .inr (overridePinsRisks_types sec c r h2)
    · obtain rfl := Except.ok.inj h
      rcases List.mem_append.mp hr with h12 | h3
      · rcases List.mem_append.mp h12 with h1 | h2
        · exact .inl (userSrcRisks_types sec c r h1)
        · exact .inr (overridePinsRisks_types sec c r h2)
      · exact .inl (baseProxyRisks_types sec _ r h3)
  · obtain rfl := Except.ok.inj h
    rcases List.mem_append.mp hr with h1 | h2
    · exact .inl (userSrcRisks_types sec c r h1)
    · exact .inr (overridePinsRisks_types sec c r h2)

theorem baseAnchorsRisks_types (env : ResolveEnv) (sec : String) :
    ∀ (i : Nat) (l : List Certificates) (rs : List Risk),
      baseAnchorsRisks env sec i l = .ok rs →
      ∀ r ∈ rs, r.type = RiskType.RiskUserAnchors ∨
        r.type = RiskType.RiskAnchorsOverridePinning := by
  intro i l
  induction l generalizing i with
  | nil =>
    intro rs h r hr
    obtain rfl := Except.ok.inj h
    cases hr
  | cons c rest ih =>
    intro rs h r hr
    simp only [baseAnchorsRisks] at h
    cases hc : baseAnchorCertRisks env
        (sec ++ " trust anchors (index: " ++ toString i ++ ")") c <;> rw [hc] at h
    · simp at h
    · cases hrest : baseAnchorsRisks env sec (i + 1) rest <;> rw [hrest] at h
      · simp at h
      · obtain rfl := Except.ok.inj h
        rcases List.mem_append.mp hr with h1 | h2
        · exact baseAnchorCertRisks_types env _ c _ hc r h1
        · exact ih (i + 1) _ hrest r h2

theorem baseCleartextRisks_types (defaults : AndroidDefaults) (sec : String)
    (ctp : Option Bool) :
    ∀ r ∈ baseCleartextRisks defaults sec ctp, r.type = RiskType.RiskCleartext := by
  intro r hr
  cases ctp with
  | none =>
    simp only [baseCleartextRisks] at hr
    split at hr
    · simp at hr; subst hr; rfl
    · cases hr
  | some b =>
    cases b
    · simp only [baseCleartextRisks] at hr; cases hr
    · simp only [baseCleartextRisks] at hr
      simp at hr; subst hr; rfl

theorem baseConfigRisks_types (env : ResolveEnv) (defaults : AndroidDefaults)
    (sec : String) (bc : Option BaseConfig) (rs : List Risk)
    (h : baseConfigRisks env defaults sec bc = .ok rs) :
    ∀ r ∈ rs, r.type = RiskType.RiskCleartext ∨ r.type = RiskType.RiskUserAnchors ∨
      r.type = RiskType.RiskAnchorsOverridePinning := by
  intro r hr
  cases bc with
  | none =>
    simp only [baseConfigRisks] at h
    obtain rfl := Except.ok.inj h
    split at hr
    · simp at hr; subst hr; exact .inl rfl
    · cases hr
  | some bcfg =>
    simp only [baseConfigRisks] at h
    split at h
    · obtain rfl := Except.ok.inj h
      exact .inl (baseCleartextRisks_types defaults sec _ r hr)
    · split at h
      · simp at h
      · obtain rfl := Except.ok.inj h
        rcases List.mem_append.mp hr with h1 | h2
        · exact .inl (baseCleartextRisks_types defaults sec _ r h1)
        · rcases baseAnchorsRisks_types env sec 0 _ _ (by assumption) r h2 with h3 | h3
          · exact .inr (.inl h3)
          · exact .inr (.inr h3)

/-! ### C5 — pin-set expiration rule -/

/-- C5: for every flattened domain-config node that declares a pin set and
whose evaluation returns normally, `RiskPinningExpiration` is emitted for
the node exactly when the expiration string fails to parse as a YYYY-MM-DD
calendar date, or the parsed expiration lies within 10 days (864000
seconds, inclusive) of the evaluation time; an unparsable date always
yields the risk. -/
theorem c5_pinset_expiration (env : ResolveEnv) (now : Int) (sec : String)
    (dc : DomainConfig) (ps : PinSet) (rs : List Risk)
    (hps : dc.pinSet = some ps) (h : domainNodeRisks env now sec dc = .ok rs) :
    ((∃ r ∈ rs, r.type = RiskType.RiskPinningExpiration) ↔
      (parseDate ps.expiration = none ∨
        ∃ d, parseDate ps.expiration = some d ∧ d * 86400 - now ≤ 864000)) := by
  rw [← pinSetExpirationHit_iff]
  have key : ∀ extra : List Risk,
      (∀ r ∈ extra, r.type ≠ RiskType.RiskPinningExpiration) →
      ((∃ r ∈ pinSetRisks now sec dc.pinSet ++ extra,
          r.type = RiskType.RiskPinningExpiration) ↔
        pinSetExpirationHit now ps.expiration = true) := by
    intro extra hextra
    rw [hps]
    simp only [pinSetRisks]
    cases hhit : pinSetExpirationHit now ps.expiration
    · rw [if_neg (by simp [hhit])]
      simp only [List.nil_append]
      constructor
      · rintro ⟨r, hr, hty⟩
        exact absurd hty (hextra r hr)
      · intro hfalse
        exact absurd hfalse (by decide)
    · rw [if_pos (by simp [hhit])]
      constructor
      · intro _
        rfl
      · intro _
        exact ⟨_, List.mem_cons_self _ _, rfl⟩
  unfold domainNodeRisks at h
  split at h
  · obtain rfl := Except.ok.inj h
    refine key _ ?_
    intro r hr h'
    have hm := malformedDomainRisks_types sec dc.domains r hr
    simp [hm] at h'
  · split at h
    · simp at h
    · obtain rfl := Except.ok.inj h
      rw [List.append_assoc]
      refine key _ ?_
      intro r hr h'
      rcases List.mem_append.mp hr with h1 | h2
      · have hm := malformedDomainRisks_types sec dc.domains r h1
        simp [hm] at h'
      · have hu := nodeAnchorsRisks_types env sec _ _ (by assumption) r h2
        simp [hu] at h'

/-- C5 witness: the theorem applied to a node with the unparsable
expiration string "bogus" at evaluation time 0. -/
theorem c5_witness :
    (DomainConfig.mk none [] none (some ⟨"bogus", []⟩) .nil).pinSet =
        some ⟨"bogus", []⟩ ∧
      ((∃ r ∈ [(⟨.RiskPinningExpiration,
            "s pin set (will) hit its expiration."⟩ : Risk)],
          r.type = RiskType.RiskPinningExpiration) ↔
        (parseDate "bogus" = none ∨
          ∃ d, parseDate "bogus" = some d ∧ d * 86400 - 0 ≤ 864000)) :=
  ⟨rfl, c5_pinset_expiration envEmpty 0 "s"
    (.mk none [] none (some ⟨"bogus", []⟩) .nil) ⟨"bogus", []⟩ _ rfl rfl⟩

/-! ### C6 — the section-level unpinned risk -/

/-- The unpinned-risk count of the domain-config section: 0 when some
flattened node set the `pinned` flag, 1 otherwise. -/
theorem domainSectionRisks_count (env : ResolveEnv) (now : Int) (sec : String)
    (forest : DomainConfigForest) (rs : List Risk)
    (h : domainSectionRisks env now sec forest = .ok rs) :
    rs.countP (fun r => decide (r.type = RiskType.RiskUnpinned)) =
      if (flattenDomainConfig forest).any nodePinned then 0 else 1 := by
  simp only [domainSectionRisks] at h
  cases hn : domainNodesRisks env now sec 0 (flattenDomainConfig forest) with
  | error e => rw [hn] at h; simp at h
  | ok nodeRs =>
    rw [hn] at h
    obtain rfl := Except.ok.inj h
    rw [List.countP_append]
    have h0 : nodeRs.countP (fun r => decide (r.type = RiskType.RiskUnpinned)) = 0 :=
      List.countP_eq_zero.mpr (fun r hr => by
        rcases domainNodesRisks_types env now sec 0 _ _ hn r hr with h1 | h1 | h1 <;>
          simp [h1])
    rw [h0, Nat.zero_add]
    split
    · simp
    · simp

/-- C6: with the NSC present and the run returning normally, the output
contains exactly one `RiskUnpinned` risk when no flattened domain-config
node declares at least one pin, and zero `RiskUnpinned` risks when some
flattened node has a non-empty pin list. -/
theorem c6_unpinned_section (env : ResolveEnv) (now : Int) (m : Manifest)
    (cfg : NetworkSecurityConfig) (d : AndroidDefaults) (rs : List Risk)
    (h : check env now m (some cfg) d = .ok rs) :
    ((∀ dc ∈ flattenDomainConfig cfg.domainConfig,
        ∀ ps, dc.pinSet = some ps → ps.pins = []) →
      rs.countP (fun r => decide (r.type = RiskType.RiskUnpinned)) = 1) ∧
    ((∃ dc ∈ flattenDomainConfig cfg.domainConfig,
        ∃ ps, dc.pinSet = some ps ∧ ps.pins ≠ []) →
      rs.countP (fun r => decide (r.type = RiskType.RiskUnpinned)) = 0) := by
  simp only [check] at h
  cases hbr : baseConfigRisks env d "NSC base config" cfg.baseConfig with
  | error e => rw [hbr] at h; simp at h
  | ok br =>
    rw [hbr] at h
    cases hdr : domainSectionRisks env now "NSC domain config" cfg.domainConfig with
    | error e => rw [hdr] at h; simp at h
    | ok dr =>
      rw [hdr] at h
      obtain rfl := Except.ok.inj h
      have hbase : br.countP (fun r => decide (r.type = RiskType.RiskUnpinned)) = 0 :=
        List.countP_eq_zero.mpr (fun r hr => by
          rcases baseConfigRisks_types env d _ cfg.baseConfig br hbr r hr with h1 | h1 | h1 <;>
            simp [h1])
      have hcount := domainSectionRisks_count env now _ cfg.domainConfig dr hdr
      rw [List.countP_append, hbase, Nat.zero_add]
      constructor
      · intro hall
        have hany : (flattenDomainConfig cfg.domainConfig).any nodePinned = false := by
          by_contra hcon
          rcases List.any_eq_true.mp (Bool.of_not_eq_false hcon) with ⟨dc, hdc, hpin⟩
          rcases (nodePinned_iff dc).mp hpin with ⟨ps, hps, hne⟩
          exact hne (hall dc hdc ps hps)
        rw [hcount, hany]
        rfl
      · rintro ⟨dc, hdc, ps, hps, hne⟩
        have hany : (flattenDomainConfig cfg.domainConfig).any nodePinned = true :=
          List.any_eq_true.mpr ⟨dc, hdc, (nodePinned_iff dc).mpr ⟨ps, hps, hne⟩⟩
        rw [hcount, hany]
        rfl

/-- C6 witness: the theorem applied to an NSC with an empty domain-config
forest, so no node declares a pin and exactly one unpinned risk appears. -/
theorem c6_witness :
    ([(⟨.RiskUnpinned,
        "NSC domain config does not contain pinned certificates."⟩ : Risk)]).countP
      (fun r => decide (r.type = RiskType.RiskUnpinned)) = 1 :=
  (c6_unpinned_section envEmpty 0 m0 ⟨none, .nil, none⟩ d0 _ rfl).1
    (by intro dc hdc; cases hdc)
